import Mathlib

/-!
Shallow embedding of the cache-first job-orchestration layer of
`src/index.ts` (forced-alignment server): job registry (node-cache),
artifact store (S3/R2) read outcomes, the `/align` submission handler,
the `/align/status` poll handler, the `/extract-pdf` handler, the batch
PDF preprocessing, the worker lifecycle of `processAndCacheAlignment`
(download / spawn / close / parse / put / cleanup), and the sequential
batch pump `processBatchQueue` with its `isBatchRunning` flag.

External collaborators (SHA-256 hashing, JSON.parse, the network and the
store transport) are abstracted as function parameters or as outcome
data fed to the handlers, exactly at the call sites where `index.ts`
invokes them.
-/

namespace AlignServer

/-- Job lifecycle status as stored in `jobCache` by `index.ts`
(`pending`, `processing`, `completed`, `error` with its message and the
optional `details` field carrying captured stderr). -/
inductive JobStatus where
  | pending
  | processing
  | completed
  | error (errMsg : String) (details : Option String)
deriving DecidableEq, Repr

/-- The two in-progress statuses checked by the submission handler
(`status === 'pending' || status === 'processing'`). -/
def JobStatus.isInProgress : JobStatus → Bool
  | .pending => true
  | .processing => true
  | _ => false

/-- The two terminal statuses checked by the batch poll
(`isCompleted || isError`). -/
def JobStatus.isTerminal : JobStatus → Bool
  | .completed => true
  | .error _ _ => true
  | _ => false

/-- Whether a status is the terminal `error` status. -/
def JobStatus.isError : JobStatus → Bool
  | .error _ _ => true
  | _ => false

/-- The `status` string field of a job record as serialized in responses. -/
def statusName : JobStatus → String
  | .pending => "pending"
  | .processing => "processing"
  | .completed => "completed"
  | .error _ _ => "error"

/-- The job registry: the in-process `jobCache` map from cache key to job
record, as an association list where the most recent `set` shadows. -/
abbrev Registry := List (String × JobStatus)

/-- `jobCache.get(key)`. -/
def rget (r : Registry) (k : String) : Option JobStatus :=
  match r with
  | [] => none
  | (k', v) :: rest => if k' == k then some v else rget rest k

/-- `jobCache.set(key, record)`. -/
def rset (r : Registry) (k : String) (v : JobStatus) : Registry :=
  (k, v) :: r

/-- The artifact store contents (bucket keys to bodies) visible to this
process, as an association list where the most recent `put` shadows. -/
abbrev Store := List (String × String)

/-- Store lookup by key. -/
def sget (s : Store) (k : String) : Option String :=
  match s with
  | [] => none
  | (k', v) :: rest => if k' == k then some v else sget rest k

/-- `PutObjectCommand`: unconditional write, overwriting any prior body. -/
def sput (s : Store) (k : String) (v : String) : Store :=
  (k, v) :: s

/-- Outcome of an S3 `HeadObjectCommand`: success, or a failure carrying
`error.name` (e.g. `"NotFound"`, `"NoSuchKey"`, or a transport error). -/
inductive S3Head where
  | success
  | failed (name : String)
deriving DecidableEq, Repr

/-- Outcome of an S3 `GetObjectCommand` combined with reading and parsing
the body stream: the body on success, or the failure's `error.name`. -/
inductive SGet where
  | ok (body : String)
  | failed (name : String)
deriving DecidableEq, Repr

/-- The not-found test from `index.ts`:
`error.name === 'NotFound' || error.name === 'NoSuchKey'`. -/
def isNotFoundName (n : String) : Bool :=
  n == "NotFound" || n == "NoSuchKey"

/-- Head outcome induced by the store contents plus an optional transport
fault: a faulted call reports the fault's name; otherwise the store
contract answers success exactly when the key is present. -/
def headFor (store : Store) (k : String) (fault : Option String) : S3Head :=
  match fault with
  | some n => S3Head.failed n
  | none => if (sget store k).isSome then S3Head.success else S3Head.failed "NotFound"

/-- A worker lifecycle event: a `processAndCacheAlignment` invocation for
a key, or that run reaching a terminal registry status. -/
inductive Event where
  | invoke (key : String)
  | finish (key : String) (st : JobStatus)
deriving DecidableEq, Repr

/-- Number of worker invocations for a key in an event history. -/
def countInvoke (k : String) : List Event → Nat
  | [] => 0
  | Event.invoke k' :: es => (if k' == k then 1 else 0) + countInvoke k es
  | Event.finish _ _ :: es => countInvoke k es

/-- Number of terminal (finish) events for a key in an event history. -/
def countFinish (k : String) : List Event → Nat
  | [] => 0
  | Event.invoke _ :: es => countFinish k es
  | Event.finish k' _ :: es => (if k' == k then 1 else 0) + countFinish k es

/-- One batch queue element as pushed by the `/batch` handler:
`{ audioUrl: job.audioUrl, text: pdfText }`. -/
structure BatchEntry where
  audioUrl : String
  text : String
deriving DecidableEq, Repr

/-- Orchestration state: the job registry, the batch queue, the
`isBatchRunning` flag, the active poll loops (keys being polled by a
`setInterval` chain of `processBatchQueue`), and the worker lifecycle
event history, newest first. -/
structure Sys where
  registry : Registry
  queue : List BatchEntry
  flag : Bool
  loops : List String
  events : List Event
deriving DecidableEq, Repr

/-- Active `processAndCacheAlignment` executions for a key: invocations
not yet finished. -/
def activeWorkers (k : String) (s : Sys) : Nat :=
  countInvoke k s.events - countFinish k s.events

/-- Starting `processAndCacheAlignment(audioUrl, jobId)`: the call is not
awaited, but its body runs synchronously up to its first `await`, so the
registry holds `processing` for the key by the time the caller resumes;
the invocation is recorded in the event history. -/
def dispatchWorker (s : Sys) (jobId : String) : Sys :=
  { s with registry := rset s.registry jobId JobStatus.processing,
           events := Event.invoke jobId :: s.events }

/-- Response of the `/align` submission endpoint. -/
structure AlignResp where
  code : Nat
  jobId : String
  status : Option String
  result : Option String
  errMsg : Option String
deriving DecidableEq, Repr

/-- Step 1 of the `/align` handler, before any `await`: consult the job
cache; answer 202 with the current status when a `pending` or
`processing` record is live, otherwise fall through. -/
def alignCheckInProgress (r : Registry) (jobId : String) : Option AlignResp :=
  match rget r jobId with
  | some st =>
      if st.isInProgress then some ⟨202, jobId, some (statusName st), none, none⟩
      else none
  | none => none

/-- Remainder of the `/align` handler, after the awaited
`HeadObjectCommand` resolves: on head success answer 200
`{ jobId, status: 'completed' }` (no result body); on a failure other
than not-found answer 500 without recomputing; on not-found install
`pending` and dispatch the worker, answering 202 `{ status: 'started' }`. -/
def alignAfterHead (s : Sys) (jobId : String) (head : S3Head) : AlignResp × Sys :=
  match head with
  | S3Head.success => (⟨200, jobId, some "completed", none, none⟩, s)
  | S3Head.failed name =>
      if isNotFoundName name then
        let s1 : Sys := { s with registry := rset s.registry jobId JobStatus.pending }
        (⟨202, jobId, some "started", none, none⟩, dispatchWorker s1 jobId)
      else
        (⟨500, jobId, none, none, some "Could not check alignment cache."⟩, s)

/-- The whole `/align` handler run without interleaving: derive the key,
check the registry, then consult the store head outcome. -/
def alignHandler (hash : String → String) (s : Sys) (audioUrl : String) (head : S3Head) :
    AlignResp × Sys :=
  let jobId := hash audioUrl
  match alignCheckInProgress s.registry jobId with
  | some r => (r, s)
  | none => alignAfterHead s jobId head

/-- Response of the `/align/status/:jobId` poll endpoint. -/
structure StatusResp where
  code : Nat
  status : Option String
  result : Option String
deriving DecidableEq, Repr

/-- The `/align/status/:jobId` handler: consult the job cache; a
`completed` record fetches the artifact (200 with the result, or 500 on
a fetch failure); any other live record is answered with HTTP 200
carrying its status; an absent record falls back to the store — a body
repopulates the cache as `completed` and answers 200, a not-found
answers 404, any other failure answers 500. Returns the response and
the possibly repopulated registry. -/
def statusHandler (r : Registry) (jobId : String) (get : SGet) : StatusResp × Registry :=
  match rget r jobId with
  | some st =>
      if st = JobStatus.completed then
        match get with
        | SGet.ok body => (⟨200, some "completed", some body⟩, r)
        | SGet.failed _ => (⟨500, some "error", none⟩, r)
      else
        (⟨200, some (statusName st), none⟩, r)
  | none =>
      match get with
      | SGet.ok body => (⟨200, some "completed", some body⟩, rset r jobId JobStatus.completed)
      | SGet.failed name =>
          if isNotFoundName name then (⟨404, some "not_found", none⟩, r)
          else (⟨500, none, none⟩, r)

/-- Response of the `/extract-pdf` endpoint. -/
inductive PdfResp where
  | ok (text : String)
  | err500 (msg : String)
deriving DecidableEq, Repr

/-- The `/extract-pdf` handler after key derivation: `cacheRead` is the
combined outcome of the head/get/stream of the cached text; `fetchParse`
is the downloaded-and-parsed PDF text (`none` on download or parse
failure). Returns the response, the store after any write, and whether
the expensive recomputation (download plus parse) ran. -/
def extractPdf (store : Store) (cacheKey : String) (cacheRead : SGet)
    (fetchParse : Option String) : PdfResp × Store × Bool :=
  match cacheRead with
  | SGet.ok text => (PdfResp.ok text, store, false)
  | SGet.failed name =>
      if isNotFoundName name then
        match fetchParse with
        | some text => (PdfResp.ok text, sput store cacheKey text, true)
        | none => (PdfResp.err500 "Failed to process PDF.", store, false)
      else
        (PdfResp.err500 "Could not check PDF cache.", store, false)

/-- Per-job PDF preprocessing of the `/batch` handler: try the store
read of the cached text; on ANY failure (the catch binds every error,
not only not-found) download, parse and cache the text. Returns the
entry to enqueue (`none` when the job is skipped), the store after any
write, and whether the recomputation ran. -/
def batchPreprocessJob (store : Store) (hash : String → String)
    (audioUrl pdfUrl : String) (cacheRead : SGet) (fetchParse : Option String) :
    Option BatchEntry × Store × Bool :=
  let pdfCacheKey := hash pdfUrl ++ ".txt"
  match cacheRead with
  | SGet.ok text => (some ⟨audioUrl, text⟩, store, false)
  | SGet.failed _ =>
      match fetchParse with
      | some text => (some ⟨audioUrl, text⟩, sput store pdfCacheKey text, true)
      | none => (none, store, false)

/-- The distinct exit paths of one `processAndCacheAlignment` run:
download failure (the catch around the awaited download), spawn failure
without a runtime `close` event, spawn failure where the runtime also
delivers `close` with a (nonzero) code, and a delivered `close` with the
exit code, the captured streams, and whether the store put succeeds. -/
inductive ExitPath where
  | downloadFail
  | spawnFailNoClose
  | spawnFailClose (code : Int)
  | closeExit (code : Int) (stdout : String) (stderr : String) (putOk : Bool)
deriving DecidableEq, Repr

/-- Net effect of one worker run on its job: final registry status,
whether the scratch temp directory still exists, how many times it was
released, and the body written to the store under the job key, if any. -/
structure RunResult where
  status : JobStatus
  tempDirExists : Bool
  rmCount : Nat
  stored : Option String
deriving DecidableEq, Repr

/-- The error message recorded on a nonzero worker exit. -/
def scriptFailMsg (code : Int) : String :=
  s!"Script failed with code {code}."

/-- The `close` handler of the spawned worker: remove the temp
directory, then on a nonzero code record the error with the code and the
captured stderr; on code zero parse the captured stdout (`JSON.parse`,
abstracted as `parse`), and either put the artifact and mark
`completed`, or — on a parse or put failure — record the parse/cache
error without storing anything. -/
def closeHandler (parse : String → Option String) (code : Int)
    (stdout stderr : String) (putOk : Bool) : RunResult :=
  if code ≠ 0 then
    ⟨JobStatus.error (scriptFailMsg code) (some stderr), false, 1, none⟩
  else
    match parse stdout with
    | none => ⟨JobStatus.error "Failed to parse or cache alignment result." none, false, 1, none⟩
    | some body =>
        if putOk then ⟨JobStatus.completed, false, 1, some body⟩
        else ⟨JobStatus.error "Failed to parse or cache alignment result." none, false, 1, none⟩

/-- Net effect of `processAndCacheAlignment` per exit path: the download
catch removes the directory once; the spawn `error` handler records the
failure WITHOUT removing the directory (release then happens only if the
runtime also delivers `close`, whose nonzero code overwrites the status);
every delivered `close` removes the directory exactly once and proceeds
as `closeHandler`. -/
def runEffects (parse : String → Option String) : ExitPath → RunResult
  | ExitPath.downloadFail =>
      ⟨JobStatus.error "Failed during file download." none, true, 1, none⟩
  | ExitPath.spawnFailNoClose =>
      ⟨JobStatus.error "Failed to start alignment process." none, true, 0, none⟩
  | ExitPath.spawnFailClose code => closeHandler parse code "" "" false
  | ExitPath.closeExit code stdout stderr putOk => closeHandler parse code stdout stderr putOk

/-- The terminal check of the batch poll: whether the registry holds a
`completed` or `error` record for the key. -/
def terminalAt (r : Registry) (k : String) : Bool :=
  match rget r k with
  | some st => st.isTerminal
  | none => false

/-- One invocation of `processBatchQueue`: an empty queue clears
`isBatchRunning` and goes idle; otherwise set the flag, shift the head
entry, derive its key, dispatch the worker for its audio URL — without
consulting the registry, and discarding the entry's text — and start a
poll loop for that key. -/
def pumpStart (hash : String → String) (s : Sys) : Sys :=
  match s.queue with
  | [] => { s with flag := false }
  | e :: rest =>
      let k := hash e.audioUrl
      dispatchWorker { s with queue := rest, flag := true, loops := k :: s.loops } k

/-- One step of the batch subsystem: a `/batch` request enqueues an
entry after preprocessing; the end of a `/batch` request kicks the pump
when `isBatchRunning` is clear; a poll tick of an active loop either
recurses into the pump (when its key is terminal, clearing the
interval) or leaves the state unchanged; and an in-flight worker run
reaches a terminal registry status, recorded as a finish event. -/
inductive BStep (hash : String → String) : Sys → Sys → Prop where
  | enqueue (s : Sys) (e : BatchEntry) :
      BStep hash s { s with queue := s.queue ++ [e] }
  | kick (s : Sys) :
      BStep hash s (if s.flag then s else pumpStart hash s)
  | pollTick (s : Sys) (k : String) (hmem : k ∈ s.loops) :
      BStep hash s
        (if terminalAt s.registry k then pumpStart hash { s with loops := s.loops.erase k }
         else s)
  | finishJob (s : Sys) (k : String) (st : JobStatus)
      (hactive : countFinish k s.events < countInvoke k s.events)
      (hterm : st.isTerminal = true) :
      BStep hash s { s with registry := rset s.registry k st,
                            events := Event.finish k st :: s.events }

/-- Event histories (newest first) in which every invocation has a
matching later terminal event, alternating strictly. -/
inductive MatchedR : List Event → Prop where
  | nil : MatchedR []
  | step (k : String) (st : JobStatus) (es : List Event) (h : MatchedR es) :
      MatchedR (Event.finish k st :: Event.invoke k :: es)

/-- Sequential histories: alternating, with at most the newest
invocation still unfinished — i.e. no invocation starts before every
earlier invocation has reached a terminal event. -/
def SeqOK (es : List Event) : Prop :=
  MatchedR es ∨ ∃ k es', es = Event.invoke k :: es' ∧ MatchedR es'

/-- Inductive invariant of the batch subsystem: the `isBatchRunning`
flag tracks whether a poll loop is alive; at most one poll loop exists;
with no loop the history is fully matched; with one loop for key `k`
either the history is matched and `k` is terminal (finished, awaiting
the next tick) or the newest event is the unfinished invocation of `k`,
whose registry record is `processing`. -/
def BatchInv (s : Sys) : Prop :=
  s.flag = !s.loops.isEmpty ∧
  ((s.loops = [] ∧ MatchedR s.events) ∨
   ∃ k, s.loops = [k] ∧
     ((MatchedR s.events ∧ terminalAt s.registry k = true) ∨
      (∃ es, s.events = Event.invoke k :: es ∧ MatchedR es ∧
             rget s.registry k = some JobStatus.processing)))

/-- A freshly set key reads back its value. -/
theorem rget_rset_self (r : Registry) (k : String) (v : JobStatus) :
    rget (rset r k v) k = some v := by
  simp [rget, rset]

/-- Every delivered `close` event releases the temp directory exactly once. -/
theorem closeHandler_rmCount (parse : String → Option String) (code : Int)
    (stdout stderr : String) (putOk : Bool) :
    (closeHandler parse code stdout stderr putOk).rmCount = 1 := by
  unfold closeHandler
  by_cases h : code ≠ 0
  · simp [h]
  · simp only [h, if_false]
    cases hps : parse stdout with
    | none => rfl
    | some body => by_cases hp : putOk <;> simp [hp]

/-- C5 (amended): the scratch directory is released exactly once on
success, download failure, nonzero exit and parse failure — every path
where a `close` event is delivered, plus the download catch — but zero
times on a spawn failure for which the runtime delivers no `close`
event, because the spawn `error` handler performs no release. -/
theorem workspace_release_by_exit_path (parse : String → Option String) (p : ExitPath) :
    (runEffects parse p).rmCount = (if p = ExitPath.spawnFailNoClose then 0 else 1) := by
  cases p with
  | downloadFail => rfl
  | spawnFailNoClose => rfl
  | spawnFailClose code =>
      show (closeHandler parse code "" "" false).rmCount = 1
      exact closeHandler_rmCount parse code "" "" false
  | closeExit code stdout stderr putOk =>
      show (closeHandler parse code stdout stderr putOk).rmCount = 1
      exact closeHandler_rmCount parse code stdout stderr putOk

/-- C5 counterexample: it is not the case that every exit path of a
worker run releases the scratch directory exactly once — the
spawn-failure path without a runtime `close` event releases it zero
times. -/
theorem spawn_failure_without_close_leaks_workspace :
    ¬ ∀ (p : ExitPath), (runEffects (fun _ => none) p).rmCount = 1 := by
  intro h
  have h0 := h ExitPath.spawnFailNoClose
  simp [runEffects] at h0

/-- C6: on a nonzero worker exit the job record becomes terminal `error`
with the exit code recorded in the error message and the captured stderr
in the details, the scratch directory no longer exists, and nothing is
stored. -/
theorem nonzero_exit_records_code_and_cleans (parse : String → Option String)
    (code : Int) (stdout stderr : String) (putOk : Bool) (h : code ≠ 0) :
    runEffects parse (ExitPath.closeExit code stdout stderr putOk) =
      ⟨JobStatus.error (scriptFailMsg code) (some stderr), false, 1, none⟩ := by
  simp [runEffects, closeHandler, h]

/-- C6 witness at exit code 1. -/
theorem nonzero_exit_records_code_and_cleans_witness :
    (1 : Int) ≠ 0 ∧
    runEffects (fun _ => none) (ExitPath.closeExit 1 "out" "boom" true) =
      ⟨JobStatus.error (scriptFailMsg 1) (some "boom"), false, 1, none⟩ :=
  ⟨by decide,
   nonzero_exit_records_code_and_cleans (fun _ => none) 1 "out" "boom" true (by decide)⟩

/-- C7: when the worker exits zero but its captured stdout does not
parse, the job resolves to terminal `error` and no artifact is stored
for the key. -/
theorem parse_failure_no_artifact (parse : String → Option String)
    (stdout stderr : String) (putOk : Bool) (h : parse stdout = none) :
    runEffects parse (ExitPath.closeExit 0 stdout stderr putOk) =
      ⟨JobStatus.error "Failed to parse or cache alignment result." none, false, 1, none⟩ := by
  simp [runEffects, closeHandler, h]

/-- C7 witness on unparseable output. -/
theorem parse_failure_no_artifact_witness :
    (fun _ => (none : Option String)) "not json" = none ∧
    runEffects (fun _ => none) (ExitPath.closeExit 0 "not json" "" true) =
      ⟨JobStatus.error "Failed to parse or cache alignment result." none, false, 1, none⟩ :=
  ⟨rfl, parse_failure_no_artifact (fun _ => none) "not json" "" true rfl⟩

/-- C2 (amended): on the submission and PDF-extraction read paths a
store failure other than not-found surfaces as a 500 hard error without
recomputation or dispatch; the batch preprocessing read path, however,
recomputes (downloads, parses and re-caches the text) on EVERY store
read failure, not only on not-found. -/
theorem store_failure_handling_per_path :
    (∀ (s : Sys) (jobId name : String), isNotFoundName name = false →
        alignAfterHead s jobId (S3Head.failed name) =
          (⟨500, jobId, none, none, some "Could not check alignment cache."⟩, s)) ∧
    (∀ (store : Store) (key name : String) (fetch : Option String),
        isNotFoundName name = false →
        extractPdf store key (SGet.failed name) fetch =
          (PdfResp.err500 "Could not check PDF cache.", store, false)) ∧
    (∀ (store : Store) (hash : String → String) (audioUrl pdfUrl name text : String),
        batchPreprocessJob store hash audioUrl pdfUrl (SGet.failed name) (some text) =
          (some ⟨audioUrl, text⟩, sput store (hash pdfUrl ++ ".txt") text, true)) := by
  refine ⟨?_, ?_, ?_⟩
  · intro s jobId name h
    simp [alignAfterHead, h]
  · intro store key name fetch h
    simp [extractPdf, h]
  · intro store hash audioUrl pdfUrl name text
    rfl

/-- C2 witness at the transport failure name `"AccessDenied"`. -/
theorem store_failure_handling_per_path_witness :
    isNotFoundName "AccessDenied" = false ∧
    alignAfterHead ⟨[], [], false, [], []⟩ "k" (S3Head.failed "AccessDenied") =
      (⟨500, "k", none, none, some "Could not check alignment cache."⟩,
       ⟨[], [], false, [], []⟩) ∧
    extractPdf [] "k" (SGet.failed "AccessDenied") (some "T") =
      (PdfResp.err500 "Could not check PDF cache.", [], false) ∧
    batchPreprocessJob [] (fun x => x) "a" "p" (SGet.failed "AccessDenied") (some "T") =
      (some ⟨"a", "T"⟩, sput [] ("p" ++ ".txt") "T", true) :=
  ⟨by decide,
   store_failure_handling_per_path.1 ⟨[], [], false, [], []⟩ "k" "AccessDenied" (by decide),
   store_failure_handling_per_path.2.1 [] "k" "AccessDenied" (some "T") (by decide),
   store_failure_handling_per_path.2.2 [] (fun x => x) "a" "p" "AccessDenied" "T"⟩

/-- C2 counterexample: a store read failure that is NOT not-found
(`"AccessDenied"`) does trigger recomputation on the batch preprocessing
path — the recomputed flag of `batchPreprocessJob` is true. -/
theorem batch_preprocess_recomputes_on_any_failure :
    isNotFoundName "AccessDenied" = false ∧
    (batchPreprocessJob [] (fun x => x) "a" "p" (SGet.failed "AccessDenied")
        (some "TEXT")).2.2 = true := by
  exact ⟨by decide, rfl⟩

/-- C3 (amended): when the artifact for the derived key already exists
in the store, the submission handler answers 200 with status
`completed` and does not dispatch the worker (the state, and with it the
invocation history, is unchanged); the PDF-extraction handler returns
the cached text directly without recomputation. -/
theorem cache_hit_no_worker_invocation :
    (∀ (hash : String → String) (s : Sys) (store : Store) (url : String),
        alignCheckInProgress s.registry (hash url) = none →
        (sget store (hash url)).isSome = true →
        alignHandler hash s url (headFor store (hash url) none) =
          (⟨200, hash url, some "completed", none, none⟩, s)) ∧
    (∀ (store : Store) (key text : String) (fetch : Option String),
        extractPdf store key (SGet.ok text) fetch = (PdfResp.ok text, store, false)) := by
  constructor
  · intro hash s store url h1 h2
    simp [alignHandler, h1, headFor, h2, alignAfterHead]
  · intro store key text fetch
    rfl

/-- C3 witness on a one-artifact store with an empty registry. -/
theorem cache_hit_no_worker_invocation_witness :
    alignCheckInProgress ([] : Registry) "u" = none ∧
    (sget [("u", "BODY")] "u").isSome = true ∧
    alignHandler (fun x => x) ⟨[], [], false, [], []⟩ "u" (headFor [("u", "BODY")] "u" none) =
      (⟨200, "u", some "completed", none, none⟩, ⟨[], [], false, [], []⟩) ∧
    extractPdf [("p.txt", "T")] "p.txt" (SGet.ok "T") none =
      (PdfResp.ok "T", [("p.txt", "T")], false) :=
  ⟨rfl, rfl,
   cache_hit_no_worker_invocation.1 (fun x => x) ⟨[], [], false, [], []⟩ [("u", "BODY")] "u" rfl rfl,
   cache_hit_no_worker_invocation.2 [("p.txt", "T")] "p.txt" "T" none⟩

/-- C3 counterexample: on a submission whose artifact exists in the
store, the response is 200 but carries NO result payload — the cached
body is not returned to the client (the client must poll the status
endpoint for it). -/
theorem align_cache_hit_returns_no_result :
    sget [("u", "BODY")] "u" = some "BODY" ∧
    (alignHandler (fun x => x) ⟨[], [], false, [], []⟩ "u"
        (headFor [("u", "BODY")] "u" none)).1.code = 200 ∧
    (alignHandler (fun x => x) ⟨[], [], false, [], []⟩ "u"
        (headFor [("u", "BODY")] "u" none)).1.result = none ∧
    (alignHandler (fun x => x) ⟨[], [], false, [], []⟩ "u"
        (headFor [("u", "BODY")] "u" none)).1.result ≠ some "BODY" := by
  refine ⟨rfl, rfl, rfl, by decide⟩

/-- C8 (amended): a `completed` record with a successful artifact fetch
answers 200 with the status and result; a live `pending` or
`processing` record answers HTTP 200 (not 202) carrying that status and
no result; an unknown key whose artifact is also absent from the store
answers 404. -/
theorem status_poll_codes :
    (∀ (r : Registry) (k body : String), rget r k = some JobStatus.completed →
        statusHandler r k (SGet.ok body) = (⟨200, some "completed", some body⟩, r)) ∧
    (∀ (r : Registry) (k : String) (st : JobStatus) (g : SGet),
        rget r k = some st → st.isInProgress = true →
        statusHandler r k g = (⟨200, some (statusName st), none⟩, r)) ∧
    (∀ (r : Registry) (k name : String), rget r k = none → isNotFoundName name = true →
        statusHandler r k (SGet.failed name) = (⟨404, some "not_found", none⟩, r)) := by
  refine ⟨?_, ?_, ?_⟩
  · intro r k body h
    simp [statusHandler, h]
  · intro r k st g h hprog
    have hne : ¬ st = JobStatus.completed := by
      intro he
      rw [he] at hprog
      simp [JobStatus.isInProgress] at hprog
    simp [statusHandler, h, hne]
  · intro r k name h hn
    simp [statusHandler, h, hn]

/-- C8 witness covering the three poll outcomes. -/
theorem status_poll_codes_witness :
    rget [("c", JobStatus.completed)] "c" = some JobStatus.completed ∧
    statusHandler [("c", JobStatus.completed)] "c" (SGet.ok "R") =
      (⟨200, some "completed", some "R"⟩, [("c", JobStatus.completed)]) ∧
    rget [("p", JobStatus.processing)] "p" = some JobStatus.processing ∧
    JobStatus.processing.isInProgress = true ∧
    statusHandler [("p", JobStatus.processing)] "p" (SGet.failed "NotFound") =
      (⟨200, some (statusName JobStatus.processing), none⟩, [("p", JobStatus.processing)]) ∧
    rget ([] : Registry) "x" = none ∧
    isNotFoundName "NoSuchKey" = true ∧
    statusHandler ([] : Registry) "x" (SGet.failed "NoSuchKey") =
      (⟨404, some "not_found", none⟩, ([] : Registry)) :=
  ⟨rfl,
   status_poll_codes.1 [("c", JobStatus.completed)] "c" "R" rfl,
   rfl, rfl,
   status_poll_codes.2.1 [("p", JobStatus.processing)] "p" JobStatus.processing
     (SGet.failed "NotFound") rfl rfl,
   rfl, by decide,
   status_poll_codes.2.2 ([] : Registry) "x" "NoSuchKey" rfl (by decide)⟩

/-- C8 counterexample: polling a `pending` job answers HTTP 200, not
the 202 the claim states. -/
theorem status_pending_returns_200_not_202 :
    (statusHandler [("k", JobStatus.pending)] "k" (SGet.failed "NotFound")).1.code = 200 ∧
    (statusHandler [("k", JobStatus.pending)] "k" (SGet.failed "NotFound")).1.code ≠ 202 := by
  exact ⟨rfl, by decide⟩

/-- C9: a worker run whose final status is terminal `error` stores no
artifact under its key, and a resubmission for a key whose registry
record is `error` (with the artifact absent from the store) falls
through both cache checks and dispatches a fresh worker run. -/
theorem error_never_stores_artifact_and_resubmit_recomputes :
    (∀ (parse : String → Option String) (p : ExitPath),
        (runEffects parse p).status.isError = true → (runEffects parse p).stored = none) ∧
    (∀ (hash : String → String) (s : Sys) (url m : String) (d : Option String),
        rget s.registry (hash url) = some (JobStatus.error m d) →
        alignHandler hash s url (S3Head.failed "NotFound") =
          (⟨202, hash url, some "started", none, none⟩,
           dispatchWorker
             { s with registry := rset s.registry (hash url) JobStatus.pending }
             (hash url))) := by
  constructor
  · intro parse p
    have hclose : ∀ (code : Int) (stdout stderr : String) (putOk : Bool),
        (closeHandler parse code stdout stderr putOk).status.isError = true →
        (closeHandler parse code stdout stderr putOk).stored = none := by
      intro code stdout stderr putOk
      unfold closeHandler
      by_cases h : code ≠ 0
      · simp [h]
      · simp only [h, if_false]
        cases hps : parse stdout with
        | none => intro _; rfl
        | some body =>
            by_cases hp : putOk <;> simp [hp, JobStatus.isError]
    cases p with
    | downloadFail => intro _; rfl
    | spawnFailNoClose => intro _; rfl
    | spawnFailClose code => exact hclose code "" "" false
    | closeExit code stdout stderr putOk => exact hclose code stdout stderr putOk
  · intro hash s url m d hreg
    simp [alignHandler, alignCheckInProgress, hreg, JobStatus.isInProgress,
          alignAfterHead, isNotFoundName]

/-- C9 witness: a download-failure run stores nothing, and resubmitting
over an `error` record dispatches anew. -/
theorem error_never_stores_artifact_and_resubmit_recomputes_witness :
    (runEffects (fun _ => none) ExitPath.downloadFail).status.isError = true ∧
    (runEffects (fun _ => none) ExitPath.downloadFail).stored = none ∧
    rget [("u", JobStatus.error "boom" none)] "u" = some (JobStatus.error "boom" none) ∧
    alignHandler (fun x => x) ⟨[("u", JobStatus.error "boom" none)], [], false, [], []⟩ "u"
        (S3Head.failed "NotFound") =
      (⟨202, "u", some "started", none, none⟩,
       dispatchWorker
         ⟨[("u", JobStatus.pending), ("u", JobStatus.error "boom" none)], [], false, [], []⟩
         "u") :=
  ⟨rfl,
   error_never_stores_artifact_and_resubmit_recomputes.1 (fun _ => none)
     ExitPath.downloadFail rfl,
   rfl,
   error_never_stores_artifact_and_resubmit_recomputes.2 (fun x => x)
     ⟨[("u", JobStatus.error "boom" none)], [], false, [], []⟩ "u" "boom" none rfl⟩

/-- C10: the batch pump's dispatched computation depends only on the
head entry's audio URL — two head entries that differ only in their
resolved text yield identical successor states: the same worker
invocation, registry update, poll loop and remaining queue. -/
theorem batch_dispatch_ignores_text (hash : String → String) (s : Sys)
    (e1 e2 : BatchEntry) (rest : List BatchEntry) (h : e1.audioUrl = e2.audioUrl) :
    pumpStart hash { s with queue := e1 :: rest } =
      pumpStart hash { s with queue := e2 :: rest } := by
  simp [pumpStart, dispatchWorker, h]

/-- C10 witness: two entries with the same audio URL and different texts. -/
theorem batch_dispatch_ignores_text_witness :
    (⟨"a", "t1"⟩ : BatchEntry).audioUrl = (⟨"a", "t2"⟩ : BatchEntry).audioUrl ∧
    pumpStart (fun x => x) ⟨[], [⟨"a", "t1"⟩], false, [], []⟩ =
      pumpStart (fun x => x) ⟨[], [⟨"a", "t2"⟩], false, [], []⟩ :=
  ⟨rfl,
   batch_dispatch_ignores_text (fun x => x) ⟨[], [], false, [], []⟩
     ⟨"a", "t1"⟩ ⟨"a", "t2"⟩ [] rfl⟩

/-- C1 (amended): a submission that observes a live `pending` or
`processing` record for its key answers 202 with that status and starts
no worker — the state is unchanged whatever the store head outcome. -/
theorem submission_observing_live_job_does_not_dispatch
    (hash : String → String) (s : Sys) (url : String) (st : JobStatus) (head : S3Head)
    (hreg : rget s.registry (hash url) = some st) (hprog : st.isInProgress = true) :
    alignHandler hash s url head = (⟨202, hash url, some (statusName st), none, none⟩, s) := by
  simp [alignHandler, alignCheckInProgress, hreg, hprog]

/-- C1 amended-claim witness at a live `processing` record. -/
theorem submission_observing_live_job_does_not_dispatch_witness :
    rget [("u", JobStatus.processing)] "u" = some JobStatus.processing ∧
    JobStatus.processing.isInProgress = true ∧
    alignHandler (fun x => x) ⟨[("u", JobStatus.processing)], [], false, [], []⟩ "u"
        S3Head.success =
      (⟨202, "u", some (statusName JobStatus.processing), none, none⟩,
       ⟨[("u", JobStatus.processing)], [], false, [], []⟩) :=
  ⟨rfl, rfl,
   submission_observing_live_job_does_not_dispatch (fun x => x)
     ⟨[("u", JobStatus.processing)], [], false, [], []⟩ "u" JobStatus.processing
     S3Head.success rfl rfl⟩

/-- C1 counterexample: single flight per key fails twice over. First,
the batch pump dispatches its head entry without consulting the
registry, so with a worker already in flight for key `K` (one unfinished
invocation, registry `processing`) the pump starts a second concurrent
worker execution for `K`. Second, two submissions racing on the same
key both pass the in-progress check before either installs `pending`
(the check and the set are separated by the awaited store head), so both
dispatch — two active workers for the same key. -/
theorem single_flight_violated :
    activeWorkers "K" (pumpStart (fun x => x)
      ⟨[("K", JobStatus.processing)], [⟨"K", "text"⟩], false, [], [Event.invoke "K"]⟩) = 2 ∧
    alignCheckInProgress ([] : Registry) "u" = none ∧
    activeWorkers "u"
      (alignAfterHead
        (alignAfterHead ⟨[], [], false, [], []⟩ "u" (S3Head.failed "NotFound")).2
        "u" (S3Head.failed "NotFound")).2 = 2 := by
  refine ⟨rfl, rfl, rfl⟩

/-- In a fully matched history every key has as many invocations as
terminal events. -/
theorem matched_counts (k : String) {es : List Event} (h : MatchedR es) :
    countInvoke k es = countFinish k es := by
  induction h with
  | nil => rfl
  | step k' st es h ih => simp [countInvoke, countFinish, ih]

/-- Starting the pump from a state with no live poll loop and a fully
matched history reestablishes the batch invariant. -/
theorem batchInv_pumpStart (hash : String → String) (s : Sys)
    (hl : s.loops = []) (hm : MatchedR s.events) : BatchInv (pumpStart hash s) := by
  unfold pumpStart
  cases hq : s.queue with
  | nil =>
      refine ⟨by simp [hl], Or.inl ⟨hl, hm⟩⟩
  | cons e rest =>
      refine ⟨by simp [dispatchWorker, hl],
              Or.inr ⟨hash e.audioUrl, by simp [dispatchWorker, hl],
                      Or.inr ⟨s.events, by simp [dispatchWorker], hm, ?_⟩⟩⟩
      simp [dispatchWorker, rget_rset_self]

/-- Each step of the batch subsystem preserves the batch invariant. -/
theorem batchInv_step {hash : String → String} {s s' : Sys}
    (hinv : BatchInv s) (hstep : BStep hash s s') : BatchInv s' := by
  obtain ⟨hflag, hcase⟩ := hinv
  cases hstep with
  | enqueue e => exact ⟨hflag, hcase⟩
  | kick =>
      by_cases hf : s.flag = true
      · rw [if_pos hf]
        exact ⟨hflag, hcase⟩
      · rw [if_neg hf]
        cases hcase with
        | inl h => exact batchInv_pumpStart hash s h.1 h.2
        | inr h =>
            obtain ⟨k, hk, _⟩ := h
            rw [hk] at hflag
            simp at hflag
            exact absurd hflag hf
  | pollTick k hmem =>
      cases hcase with
      | inl h =>
          rw [h.1] at hmem
          exact absurd hmem (List.not_mem_nil k)
      | inr h =>
          obtain ⟨k0, hk0, hsub⟩ := h
          rw [hk0] at hmem
          have hkk : k = k0 := List.mem_singleton.mp hmem
          subst hkk
          cases hsub with
          | inl hmt =>
              obtain ⟨hm, ht⟩ := hmt
              rw [if_pos ht]
              refine batchInv_pumpStart hash _ ?_ hm
              simp [hk0]
          | inr hpr =>
              obtain ⟨es, he, hm, hr⟩ := hpr
              have ht : ¬ terminalAt s.registry k = true := by
                simp [terminalAt, hr, JobStatus.isTerminal]
              rw [if_neg ht]
              exact ⟨hflag, Or.inr ⟨k, hk0, Or.inr ⟨es, he, hm, hr⟩⟩⟩
  | finishJob k st hactive hterm =>
      cases hcase with
      | inl h =>
          rw [matched_counts k h.2] at hactive
          exact absurd hactive (lt_irrefl _)
      | inr h =>
          obtain ⟨k0, hk0, hsub⟩ := h
          cases hsub with
          | inl hmt =>
              rw [matched_counts k hmt.1] at hactive
              exact absurd hactive (lt_irrefl _)
          | inr hpr =>
              obtain ⟨es, he, hm, _⟩ := hpr
              have hkk : k = k0 := by
                by_contra hne
                rw [he] at hactive
                have hbe : (k0 == k) = false := by
                  simp only [beq_eq_false_iff_ne, ne_eq]
                  intro hc
                  exact hne hc.symm
                have hcnt := matched_counts k hm
                simp [countInvoke, countFinish, hbe, hcnt] at hactive
              subst hkk
              refine ⟨hflag, Or.inr ⟨k, hk0, Or.inl ⟨?_, ?_⟩⟩⟩
              · rw [he]
                exact MatchedR.step k st es hm
              · simp [terminalAt, rget_rset_self, hterm]

/-- C4: in every state of the batch subsystem reachable from an idle
initial state (flag clear, no poll loop, empty history), at most one
pump poll loop is active, and the worker-invocation history is strictly
sequential: no batch dispatch occurs before every earlier dispatched
job has reached a terminal (`completed` or `error`) registry status. -/
theorem batch_sequential_single_pump (hash : String → String) (s0 s : Sys)
    (hinit : s0.flag = false ∧ s0.loops = [] ∧ s0.events = [])
    (hreach : Relation.ReflTransGen (BStep hash) s0 s) :
    s.loops.length ≤ 1 ∧ SeqOK s.events := by
  have hinv : BatchInv s := by
    have h0 : BatchInv s0 := by
      obtain ⟨hf, hl, he⟩ := hinit
      exact ⟨by rw [hf, hl]; rfl, Or.inl ⟨hl, he ▸ MatchedR.nil⟩⟩
    induction hreach with
    | refl => exact h0
    | tail _ hstep ih => exact batchInv_step ih hstep
  obtain ⟨_, hcase⟩ := hinv
  cases hcase with
  | inl h =>
      refine ⟨by rw [h.1]; simp, Or.inl h.2⟩
  | inr h =>
      obtain ⟨k, hk, hsub⟩ := h
      refine ⟨by rw [hk]; simp, ?_⟩
      cases hsub with
      | inl hmt => exact Or.inl hmt.1
      | inr hpr =>
          obtain ⟨es, he, hm, _⟩ := hpr
          exact Or.inr ⟨k, es, he, hm⟩

/-- C4 witness: one kick step from an idle one-entry state dispatches
the single entry; the resulting history is the lone invocation. -/
theorem batch_sequential_single_pump_witness :
    (["a"] : List String).length ≤ 1 ∧ SeqOK [Event.invoke "a"] :=
  batch_sequential_single_pump (fun x => x)
    ⟨[], [⟨"a", "t"⟩], false, [], []⟩
    (pumpStart (fun x => x) ⟨[], [⟨"a", "t"⟩], false, [], []⟩)
    ⟨rfl, rfl, rfl⟩
    (Relation.ReflTransGen.tail Relation.ReflTransGen.refl
      (BStep.kick ⟨[], [⟨"a", "t"⟩], false, [], []⟩))

end AlignServer
